import Mathlib

/-!
# Verification of the instant email-consumer pipeline

Shallow embedding of the idempotent, retry-aware Kafka email consumer:
the envelope data model (`EmailEvent`), the two senders (`logSenderSend`,
`smtpSenderSend`), the Redis-backed idempotency store (`setNX`,
`MarkAsProcessed`), the consumer loop body (`processMessage`,
`processWithRetry`, `sendToDLQ`) and the synchronous Kafka producer path
(`PublishEmailEventSync`).

External effects (JSON parsing, Redis round trips, the SMTP transport,
Kafka produce/delivery) are supplied as oracle values in a `ConsumerEnv`;
the consumer body is a deterministic function from those oracles to a
trace of observable actions (`Action`), over which the temporal and
error-handling properties are stated.
-/

namespace Instant

/-- A value stored in the dynamic `data` map of an envelope.  The Go code
only ever distinguishes "a JSON string" (the `.(string)` type assertion
succeeds) from anything else. -/
inductive DataValue where
  | str (s : String)
  | other
deriving DecidableEq, Repr

/-- `EmailEvent` from the email events model: the envelope placed on the
durable log.  `timestamp` and all times are modelled as abstract `Nat`
instants. -/
structure EmailEvent where
  messageID : String
  eventType : String
  timestamp : Nat
  recipient : String
  data : List (String × DataValue)
deriving DecidableEq, Repr

/-- `EmailTypeVerificationCode` constant. -/
def EmailTypeVerificationCode : String := "verification_code"

/-- `EmailTypeWelcome` constant (future use). -/
def EmailTypeWelcome : String := "welcome"

/-- `EmailTypePasswordReset` constant (future use). -/
def EmailTypePasswordReset : String := "password_reset"

/-- Metadata snapshot stored in Redis for deduplication (`EmailMetadata`). -/
structure EmailMetadata where
  sentAt : Nat
  recipient : String
  eventType : String
deriving DecidableEq, Repr

/-- Lookup of `event.Data[k]` in the dynamic map. -/
def lookupData (data : List (String × DataValue)) (k : String) : Option DataValue :=
  (data.find? (fun p => p.1 == k)).map Prod.snd

/-- The Go pattern `v, ok := event.Data[k].(string)`: succeeds exactly when
the key is present and bound to a string. -/
def dataString (data : List (String × DataValue)) (k : String) : Option String :=
  match lookupData data k with
  | some (DataValue.str s) => some s
  | _ => none

/-- `logSender.SendEmailEvent`: the development (log-mode) sender.
`SendVerificationCode` on the log sender only logs and returns nil, so the
verification branch succeeds whenever the `code` string assertion does;
every other event type is logged and succeeds. -/
def logSenderSend (event : EmailEvent) : Except String Unit :=
  if event.eventType = EmailTypeVerificationCode then
    match dataString event.data "code" with
    | none => Except.error "invalid verification code data"
    | some _ => Except.ok ()
  else
    Except.ok ()

/-- `smtpSender.SendEmailEvent`: the production sender.  The outcome of
`smtp.SendMail` for a given recipient and code is supplied by the
`transport` oracle; its error is wrapped.  Unknown event types fail. -/
def smtpSenderSend (transport : String → String → Except String Unit)
    (event : EmailEvent) : Except String Unit :=
  if event.eventType = EmailTypeVerificationCode then
    match dataString event.data "code" with
    | none => Except.error "invalid verification code data"
    | some code =>
      match transport event.recipient code with
      | Except.error e => Except.error ("failed to send email: " ++ e)
      | Except.ok _ => Except.ok ()
  else
    Except.error ("unsupported email type: " ++ event.eventType)

/-! ## Idempotency store -/

/-- The fixed Redis namespace, `keyPrefix()` in the Go code. -/
def sentKeyNS : String := "email:sent:"

/-- `buildKey`: namespace plus message id. -/
def buildKey (messageID : String) : String := sentKeyNS ++ messageID

/-- Go `time.Hour` as a count of nanoseconds. -/
def hourNs : Nat := 3600 * 1000000000

/-- The store's fixed TTL: `24 * time.Hour`. -/
def idempotencyTTL : Nat := 24 * hourNs

/-- One record of the key-value store backing the idempotency barrier. -/
structure StoreEntry where
  key : String
  value : EmailMetadata
  ttl : Nat
deriving DecidableEq, Repr

/-- Redis `SET NX` with TTL: create-if-absent, atomic.  Returns whether the
entry was created together with the updated store. -/
def setNX (store : List StoreEntry) (k : String) (v : EmailMetadata) (ttl : Nat) :
    Bool × List StoreEntry :=
  if store.any (fun e => e.key == k) then (false, store)
  else (true, store ++ [⟨k, v, ttl⟩])

/-- `IdempotencyStore.MarkAsProcessed` on the success path of the Redis
round trip: builds the key, snapshots metadata at the current instant and
performs the atomic `SET NX` with the fixed TTL.  (An unreachable store is
modelled at the consumer level by the `markResult` oracle.) -/
def MarkAsProcessed (store : List StoreEntry) (now : Nat) (event : EmailEvent) :
    Bool × List StoreEntry :=
  setNX store (buildKey event.messageID)
    ⟨now, event.recipient, event.eventType⟩ idempotencyTTL

/-! ## Consumer loop body -/

/-- A dead-letter record as marshalled by `sendToDLQ`:
`{original_event, error, failed_at, consumer_group}`. -/
structure DLQRecord where
  originalEvent : EmailEvent
  error : String
  failedAt : Nat
  consumerGroup : String
deriving DecidableEq, Repr

/-- Observable actions of one `processMessage` call, in program order. -/
inductive Action where
  | dedupRead (id : String)
  | sendAttempt (n : Nat) (ok : Bool)
  | sleep (secs : Nat)
  | markProcessed (id : String)
  | dlqProduce (topic : String) (rec : DLQRecord)
  | commit
deriving DecidableEq, Repr

/-- `ConsumerConfig`: `MaxRetries` is a Go `int`, so modelled as `Int`. -/
structure ConsumerConfig where
  brokers : String
  topic : String
  dlqTopic : String
  consumerGroup : String
  maxRetries : Int
deriving Repr

/-- The default substitution in `processWithRetry`: a non-positive
configured `MaxRetries` becomes 3. -/
def effectiveMaxRetries (mr : Int) : Nat :=
  if mr ≤ 0 then 3 else mr.toNat

/-- Result of `processWithRetry`: the returned error value and the trace of
send attempts and backoff sleeps it performed. -/
structure RetryResult where
  result : Except String Unit
  trace : List Action
deriving Repr

/-- The retry loop of `processWithRetry`, unrolled on the number of
remaining attempts.  `attempt` is the 1-based index of the current attempt,
`remaining` the attempts still allowed (so `attempt ≤ maxRetries` iff
`remaining ≥ 1`, and the backoff sleep of `attempt` seconds happens iff
another attempt follows).  `send n` is the oracle outcome of
`sender.SendEmailEvent` on attempt `n`. -/
def retryFrom (send : Nat → Except String Unit) (attempt : Nat) (lastErr : String) :
    Nat → RetryResult
  | 0 => ⟨Except.error ("max retries exceeded: " ++ lastErr), []⟩
  | remaining + 1 =>
    match send attempt with
    | Except.ok _ => ⟨Except.ok (), [Action.sendAttempt attempt true]⟩
    | Except.error e =>
      ⟨(retryFrom send (attempt + 1) e remaining).result,
        Action.sendAttempt attempt false ::
          ((if remaining = 0 then [] else [Action.sleep attempt]) ++
            (retryFrom send (attempt + 1) e remaining).trace)⟩

/-- `Consumer.processWithRetry`: up to `effectiveMaxRetries` attempts,
starting at attempt 1 with a nil last error. -/
def processWithRetry (send : Nat → Except String Unit) (maxRetries : Int) : RetryResult :=
  retryFrom send 1 "" (effectiveMaxRetries maxRetries)

/-- `Consumer.sendToDLQ`: marshal the dead-letter record and produce it to
the DLQ topic.  Marshal or produce failures are logged and swallowed (the
function has no error result); only a successful produce emits the
record. -/
def sendToDLQ (cfg : ConsumerConfig) (now : Nat) (marshalOk produceOk : Bool)
    (event : EmailEvent) (procErr : String) : List Action :=
  if marshalOk then
    if produceOk then
      [Action.dlqProduce cfg.dlqTopic ⟨event, procErr, now, cfg.consumerGroup⟩]
    else []
  else []

/-- Oracle outcomes of the external effects of one `processMessage` call. -/
structure ConsumerEnv where
  /-- Result of `json.Unmarshal` on the message value. -/
  parse : Option EmailEvent
  /-- Result of `idempotencyStore.IsProcessed`. -/
  dedupResult : Except String Bool
  /-- Outcome of `sender.SendEmailEvent` on each 1-based attempt. -/
  send : Nat → Except String Unit
  /-- Result of `idempotencyStore.MarkAsProcessed`. -/
  markResult : Except String Bool
  /-- Whether `json.Marshal` of the dead-letter record succeeds. -/
  dlqMarshalOk : Bool
  /-- Whether `dlqProducer.Produce` succeeds. -/
  dlqProduceOk : Bool
  /-- `time.Now()` at the dead-letter write. -/
  now : Nat

/-- `Consumer.processMessage`: the body of the consumer loop for one
message, returning the trace of observable actions it performs. -/
def processMessage (cfg : ConsumerConfig) (env : ConsumerEnv) : List Action :=
  match env.parse with
  | none => [Action.commit]
  | some event =>
    if event.messageID = "" then [Action.commit]
    else
      match env.dedupResult with
      | Except.error _ => [Action.dedupRead event.messageID]
      | Except.ok true => [Action.dedupRead event.messageID, Action.commit]
      | Except.ok false =>
        match (processWithRetry env.send cfg.maxRetries).result with
        | Except.error e =>
          Action.dedupRead event.messageID ::
            ((processWithRetry env.send cfg.maxRetries).trace
              ++ (sendToDLQ cfg env.now env.dlqMarshalOk env.dlqProduceOk event e
                ++ [Action.commit]))
        | Except.ok _ =>
          match env.markResult with
          | Except.error _ =>
            Action.dedupRead event.messageID ::
              ((processWithRetry env.send cfg.maxRetries).trace
                ++ [Action.markProcessed event.messageID])
          | Except.ok _ =>
            Action.dedupRead event.messageID ::
              ((processWithRetry env.send cfg.maxRetries).trace
                ++ [Action.markProcessed event.messageID, Action.commit])

/-! ## Trace observations -/

/-- Number of dispatch attempts recorded in a trace. -/
def countSends : List Action → Nat
  | [] => 0
  | Action.sendAttempt _ _ :: rest => countSends rest + 1
  | _ :: rest => countSends rest

/-- The dead-letter records produced in a trace. -/
def dlqRecords : List Action → List DLQRecord
  | [] => []
  | Action.dlqProduce _ rec :: rest => rec :: dlqRecords rest
  | _ :: rest => dlqRecords rest

/-- The backoff sleep durations of a trace, in order. -/
def sleepsOf : List Action → List Nat
  | [] => []
  | Action.sleep s :: rest => s :: sleepsOf rest
  | _ :: rest => sleepsOf rest

/-- Whether a successful dispatch attempt has been scanned, starting from
`seen`. -/
def seenAfter : List Action → Bool → Bool
  | [], seen => seen
  | Action.sendAttempt _ ok :: rest, seen => seenAfter rest (seen || ok)
  | _ :: rest, seen => seenAfter rest seen

/-- Temporal scan: every `markProcessed` in the trace is preceded by a
successful dispatch attempt.  `seen` records whether a successful attempt
has already been scanned. -/
def markAfterSuccess : List Action → Bool → Bool
  | [], _ => true
  | Action.markProcessed _ :: rest, seen => seen && markAfterSuccess rest seen
  | Action.sendAttempt _ ok :: rest, seen => markAfterSuccess rest (seen || ok)
  | _ :: rest, seen => markAfterSuccess rest seen

/-! ## Synchronous producer -/

/-- Observable outcome of `Producer.PublishEmailEventSync`: the returned
error value, and whether `producer.Produce` was invoked at all. -/
structure SyncPublishOutcome where
  result : Except String Unit
  produceCalled : Bool
deriving Repr

/-- `Producer.PublishEmailEventSync`: serialize, produce with a dedicated
delivery channel, block on the delivery report, surface its transport
error.  `marshal` is the `json.Marshal` outcome, `produceErr` the
immediate `Produce` enqueue error, `deliveryErr` the
`TopicPartition.Error` of the delivery report. -/
def PublishEmailEventSync (marshal : Except String String)
    (produceErr : Option String) (deliveryErr : Option String) : SyncPublishOutcome :=
  match marshal with
  | Except.error e => ⟨Except.error ("failed to marshal event: " ++ e), false⟩
  | Except.ok _ =>
    match produceErr with
    | some e => ⟨Except.error ("failed to produce message: " ++ e), true⟩
    | none =>
      match deliveryErr with
      | some e => ⟨Except.error ("delivery failed: " ++ e), true⟩
      | none => ⟨Except.ok (), true⟩

/-! ## Helper lemmas on trace observations -/

theorem countSends_append (l₁ l₂ : List Action) :
    countSends (l₁ ++ l₂) = countSends l₁ + countSends l₂ := by
  induction l₁ with
  | nil => simp [countSends]
  | cons a t ih =>
    cases a <;> simp [countSends, ih]
    omega

theorem dlqRecords_append (l₁ l₂ : List Action) :
    dlqRecords (l₁ ++ l₂) = dlqRecords l₁ ++ dlqRecords l₂ := by
  induction l₁ with
  | nil => simp [dlqRecords]
  | cons a t ih => cases a <;> simp [dlqRecords, ih]

theorem sleepsOf_append (l₁ l₂ : List Action) :
    sleepsOf (l₁ ++ l₂) = sleepsOf l₁ ++ sleepsOf l₂ := by
  induction l₁ with
  | nil => simp [sleepsOf]
  | cons a t ih => cases a <;> simp [sleepsOf, ih]

theorem seenAfter_append (l₁ l₂ : List Action) (s : Bool) :
    seenAfter (l₁ ++ l₂) s = seenAfter l₂ (seenAfter l₁ s) := by
  induction l₁ generalizing s with
  | nil => simp [seenAfter]
  | cons a t ih => cases a <;> simp [seenAfter, ih]

theorem markAfterSuccess_append (l₁ l₂ : List Action) (s : Bool) :
    markAfterSuccess (l₁ ++ l₂) s =
      (markAfterSuccess l₁ s && markAfterSuccess l₂ (seenAfter l₁ s)) := by
  induction l₁ generalizing s with
  | nil => simp [markAfterSuccess, seenAfter]
  | cons a t ih =>
    cases a <;> simp [markAfterSuccess, seenAfter, ih, Bool.and_assoc]

/-! ## Helper lemmas on the retry loop -/

theorem effectiveMaxRetries_pos (mr : Int) : 0 < effectiveMaxRetries mr := by
  unfold effectiveMaxRetries
  split
  · norm_num
  · rename_i h
    omega

theorem retryFrom_trace_shape (send : Nat → Except String Unit) :
    ∀ r a e x, x ∈ (retryFrom send a e r).trace →
      (∃ n b, x = Action.sendAttempt n b) ∨ ∃ s, x = Action.sleep s := by
  intro r
  induction r with
  | zero => intro a e x hx; simp [retryFrom] at hx
  | succ r ih =>
    intro a e x hx
    cases hsend : send a with
    | ok u =>
      simp [retryFrom, hsend] at hx
      exact Or.inl ⟨a, true, hx⟩
    | error msg =>
      by_cases hr0 : r = 0
      · simp [retryFrom, hsend, hr0] at hx
        exact Or.inl ⟨a, false, hx⟩
      · simp [retryFrom, hsend, hr0] at hx
        rcases hx with rfl | rfl | hx
        · exact Or.inl ⟨a, false, rfl⟩
        · exact Or.inr ⟨a, rfl⟩
        · exact ih (a + 1) msg x hx

theorem countSends_retryFrom_allFail (send : Nat → Except String Unit)
    (hfail : ∀ n, ∃ msg, send n = Except.error msg) :
    ∀ r a e, countSends (retryFrom send a e r).trace = r := by
  intro r
  induction r with
  | zero => intro a e; simp [retryFrom, countSends]
  | succ r ih =>
    intro a e
    obtain ⟨msg, hmsg⟩ := hfail a
    by_cases hr0 : r = 0 <;>
      simp [retryFrom, hmsg, hr0, countSends, countSends_append, ih]

theorem result_retryFrom_allFail (send : Nat → Except String Unit)
    (hfail : ∀ n, ∃ msg, send n = Except.error msg) :
    ∀ r a e, 0 < r →
      ∃ msg, send (a + r - 1) = Except.error msg ∧
        (retryFrom send a e r).result =
          Except.error ("max retries exceeded: " ++ msg) := by
  intro r
  induction r with
  | zero => intro a e h; omega
  | succ r ih =>
    intro a e _
    obtain ⟨msg, hmsg⟩ := hfail a
    by_cases hr0 : r = 0
    · subst hr0
      refine ⟨msg, by simpa using hmsg, ?_⟩
      simp [retryFrom, hmsg]
    · obtain ⟨msg', h1, h2⟩ := ih (a + 1) msg (Nat.pos_of_ne_zero hr0)
      refine ⟨msg', ?_, ?_⟩
      · have harith : a + 1 + r - 1 = a + (r + 1) - 1 := by omega
        rwa [harith] at h1
      · simp [retryFrom, hmsg, h2]

theorem result_retryFrom_constFail (send : Nat → Except String Unit) (msg : String)
    (h : ∀ n, send n = Except.error msg) :
    ∀ r a e, 0 < r →
      (retryFrom send a e r).result =
        Except.error ("max retries exceeded: " ++ msg) := by
  intro r a e hr
  obtain ⟨m, hm, hres⟩ :=
    result_retryFrom_allFail send (fun n => ⟨msg, h n⟩) r a e hr
  rw [h (a + r - 1)] at hm
  cases hm
  exact hres

theorem retryFrom_first_ok (send : Nat → Except String Unit) (a : Nat) (e : String)
    (r : Nat) (h0 : 0 < r) (hok : send a = Except.ok ()) :
    retryFrom send a e r = ⟨Except.ok (), [Action.sendAttempt a true]⟩ := by
  cases r with
  | zero => omega
  | succ r => simp [retryFrom, hok]

theorem retryFrom_trace_head (send : Nat → Except String Unit) (a : Nat) (e : String) :
    ∀ r, 0 < r → ∃ b rest,
      (retryFrom send a e r).trace = Action.sendAttempt a b :: rest := by
  intro r hr
  cases r with
  | zero => omega
  | succ r =>
    cases hsend : send a with
    | ok u => exact ⟨true, [], by simp [retryFrom, hsend]⟩
    | error msg =>
      refine ⟨false, (if r = 0 then [] else [Action.sleep a]) ++
        (retryFrom send (a + 1) msg r).trace, ?_⟩
      simp [retryFrom, hsend]

theorem seenAfter_retryFrom_ok (send : Nat → Except String Unit) :
    ∀ r a e s, (retryFrom send a e r).result = Except.ok () →
      seenAfter (retryFrom send a e r).trace s = true := by
  intro r
  induction r with
  | zero => intro a e s h; simp [retryFrom] at h
  | succ r ih =>
    intro a e s h
    cases hsend : send a with
    | ok u => simp [retryFrom, hsend, seenAfter]
    | error msg =>
      simp only [retryFrom, hsend] at h ⊢
      by_cases hr0 : r = 0
      · subst hr0
        simp [retryFrom] at h
      · simp only [hr0, if_false, seenAfter, seenAfter_append, Bool.or_false]
        exact ih (a + 1) msg _ h

theorem markAfterSuccess_retryFrom (send : Nat → Except String Unit) :
    ∀ r a e s, markAfterSuccess (retryFrom send a e r).trace s = true := by
  intro r
  induction r with
  | zero => intro a e s; simp [retryFrom, markAfterSuccess]
  | succ r ih =>
    intro a e s
    cases hsend : send a with
    | ok u => simp [retryFrom, hsend, markAfterSuccess]
    | error msg =>
      by_cases hr0 : r = 0 <;>
        simp [retryFrom, hsend, hr0, markAfterSuccess, markAfterSuccess_append,
          seenAfter, ih]

theorem dlqRecords_retryFrom (send : Nat → Except String Unit) :
    ∀ r a e, dlqRecords (retryFrom send a e r).trace = [] := by
  intro r
  induction r with
  | zero => intro a e; simp [retryFrom, dlqRecords]
  | succ r ih =>
    intro a e
    cases hsend : send a with
    | ok u => simp [retryFrom, hsend, dlqRecords]
    | error msg =>
      by_cases hr0 : r = 0 <;>
        simp [retryFrom, hsend, hr0, dlqRecords, dlqRecords_append, ih]

theorem commit_not_mem_retryFrom (send : Nat → Except String Unit)
    (r a : Nat) (e : String) : Action.commit ∉ (retryFrom send a e r).trace := by
  intro hmem
  rcases retryFrom_trace_shape send r a e Action.commit hmem with ⟨n, b, h⟩ | ⟨s, h⟩ <;>
    simp at h

theorem sleepsOf_retryFrom_range (send : Nat → Except String Unit) :
    ∀ r a e, ∃ m, sleepsOf (retryFrom send a e r).trace = List.range' a m := by
  intro r
  induction r with
  | zero => intro a e; exact ⟨0, by simp [retryFrom, sleepsOf]⟩
  | succ r ih =>
    intro a e
    cases hsend : send a with
    | ok u => exact ⟨0, by simp [retryFrom, hsend, sleepsOf]⟩
    | error msg =>
      by_cases hr0 : r = 0
      · subst hr0
        exact ⟨0, by simp [retryFrom, hsend, sleepsOf]⟩
      · obtain ⟨m, hm⟩ := ih (a + 1) msg
        refine ⟨m + 1, ?_⟩
        simp [retryFrom, hsend, hr0, sleepsOf, sleepsOf_append, hm, List.range'_succ]

theorem chain_le_range' : ∀ m a, List.Chain' (fun x y => x ≤ y) (List.range' a m) := by
  intro m
  induction m with
  | zero => intro a; simp
  | succ m ih =>
    intro a
    rw [List.range'_succ]
    cases m with
    | zero => simp
    | succ m' =>
      rw [List.range'_succ]
      refine List.chain'_cons.mpr ⟨by omega, ?_⟩
      rw [← List.range'_succ]
      exact ih (a + 1)

/-! ## Wrappers at the `processWithRetry` level -/

theorem commit_not_mem_processWithRetry (send : Nat → Except String Unit) (mr : Int) :
    Action.commit ∉ (processWithRetry send mr).trace :=
  commit_not_mem_retryFrom send (effectiveMaxRetries mr) 1 ""

theorem dlqRecords_processWithRetry (send : Nat → Except String Unit) (mr : Int) :
    dlqRecords (processWithRetry send mr).trace = [] :=
  dlqRecords_retryFrom send (effectiveMaxRetries mr) 1 ""

theorem markAfterSuccess_processWithRetry (send : Nat → Except String Unit) (mr : Int)
    (s : Bool) : markAfterSuccess (processWithRetry send mr).trace s = true :=
  markAfterSuccess_retryFrom send (effectiveMaxRetries mr) 1 "" s

theorem seenAfter_processWithRetry_ok (send : Nat → Except String Unit) (mr : Int)
    (s : Bool) (h : (processWithRetry send mr).result = Except.ok ()) :
    seenAfter (processWithRetry send mr).trace s = true :=
  seenAfter_retryFrom_ok send (effectiveMaxRetries mr) 1 "" s h

theorem countSends_processWithRetry_allFail (send : Nat → Except String Unit) (mr : Int)
    (hfail : ∀ n, ∃ msg, send n = Except.error msg) :
    countSends (processWithRetry send mr).trace = effectiveMaxRetries mr :=
  countSends_retryFrom_allFail send hfail (effectiveMaxRetries mr) 1 ""

theorem result_processWithRetry_allFail (send : Nat → Except String Unit) (mr : Int)
    (hfail : ∀ n, ∃ msg, send n = Except.error msg) :
    ∃ msg, send (1 + effectiveMaxRetries mr - 1) = Except.error msg ∧
      (processWithRetry send mr).result =
        Except.error ("max retries exceeded: " ++ msg) :=
  result_retryFrom_allFail send hfail (effectiveMaxRetries mr) 1 ""
    (effectiveMaxRetries_pos mr)

theorem result_processWithRetry_constFail (send : Nat → Except String Unit) (mr : Int)
    (msg : String) (h : ∀ n, send n = Except.error msg) :
    (processWithRetry send mr).result =
      Except.error ("max retries exceeded: " ++ msg) :=
  result_retryFrom_constFail send msg h (effectiveMaxRetries mr) 1 ""
    (effectiveMaxRetries_pos mr)

theorem processWithRetry_first_ok (send : Nat → Except String Unit) (mr : Int)
    (hok : send 1 = Except.ok ()) :
    processWithRetry send mr = ⟨Except.ok (), [Action.sendAttempt 1 true]⟩ :=
  retryFrom_first_ok send 1 "" (effectiveMaxRetries mr) (effectiveMaxRetries_pos mr) hok

theorem processWithRetry_trace_head (send : Nat → Except String Unit) (mr : Int) :
    ∃ b rest, (processWithRetry send mr).trace = Action.sendAttempt 1 b :: rest :=
  retryFrom_trace_head send 1 "" (effectiveMaxRetries mr) (effectiveMaxRetries_pos mr)

/-! ## Branch equations of `processMessage` -/

theorem processMessage_parse_none (cfg : ConsumerConfig) (env : ConsumerEnv)
    (h : env.parse = none) : processMessage cfg env = [Action.commit] := by
  simp [processMessage, h]

theorem processMessage_invalid (cfg : ConsumerConfig) (env : ConsumerEnv)
    (event : EmailEvent) (hp : env.parse = some event)
    (hid : event.messageID = "") : processMessage cfg env = [Action.commit] := by
  simp [processMessage, hp, hid]

theorem processMessage_dedup_error (cfg : ConsumerConfig) (env : ConsumerEnv)
    (event : EmailEvent) (e : String) (hp : env.parse = some event)
    (hid : event.messageID ≠ "") (hd : env.dedupResult = Except.error e) :
    processMessage cfg env = [Action.dedupRead event.messageID] := by
  simp [processMessage, hp, hid, hd]

theorem processMessage_duplicate (cfg : ConsumerConfig) (env : ConsumerEnv)
    (event : EmailEvent) (hp : env.parse = some event)
    (hid : event.messageID ≠ "") (hd : env.dedupResult = Except.ok true) :
    processMessage cfg env = [Action.dedupRead event.messageID, Action.commit] := by
  simp [processMessage, hp, hid, hd]

theorem processMessage_retry_failed (cfg : ConsumerConfig) (env : ConsumerEnv)
    (event : EmailEvent) (e : String) (hp : env.parse = some event)
    (hid : event.messageID ≠ "") (hd : env.dedupResult = Except.ok false)
    (hres : (processWithRetry env.send cfg.maxRetries).result = Except.error e) :
    processMessage cfg env =
      Action.dedupRead event.messageID ::
        ((processWithRetry env.send cfg.maxRetries).trace
          ++ (sendToDLQ cfg env.now env.dlqMarshalOk env.dlqProduceOk event e
            ++ [Action.commit])) := by
  simp [processMessage, hp, hid, hd, hres]

theorem processMessage_mark_error (cfg : ConsumerConfig) (env : ConsumerEnv)
    (event : EmailEvent) (e : String) (hp : env.parse = some event)
    (hid : event.messageID ≠ "") (hd : env.dedupResult = Except.ok false)
    (hres : (processWithRetry env.send cfg.maxRetries).result = Except.ok ())
    (hm : env.markResult = Except.error e) :
    processMessage cfg env =
      Action.dedupRead event.messageID ::
        ((processWithRetry env.send cfg.maxRetries).trace
          ++ [Action.markProcessed event.messageID]) := by
  simp [processMessage, hp, hid, hd, hres, hm]

theorem processMessage_mark_ok (cfg : ConsumerConfig) (env : ConsumerEnv)
    (event : EmailEvent) (b : Bool) (hp : env.parse = some event)
    (hid : event.messageID ≠ "") (hd : env.dedupResult = Except.ok false)
    (hres : (processWithRetry env.send cfg.maxRetries).result = Except.ok ())
    (hm : env.markResult = Except.ok b) :
    processMessage cfg env =
      Action.dedupRead event.messageID ::
        ((processWithRetry env.send cfg.maxRetries).trace
          ++ [Action.markProcessed event.messageID, Action.commit]) := by
  simp [processMessage, hp, hid, hd, hres, hm]

theorem commit_not_mem_sendToDLQ (cfg : ConsumerConfig) (now : Nat) (m p : Bool)
    (event : EmailEvent) (err : String) :
    Action.commit ∉ sendToDLQ cfg now m p event err := by
  cases m <;> cases p <;> simp [sendToDLQ]

/-! ## Concrete fixtures for witnesses -/

/-- A concrete consumer configuration with the documented retry bound 3. -/
def cfgW : ConsumerConfig :=
  ⟨"localhost:9092", "email-events", "email-events-dlq", "email-service-group", 3⟩

/-- A concrete well-formed verification-code envelope. -/
def eventW : EmailEvent :=
  ⟨"m1", "verification_code", 0, "a@x.com", [("code", DataValue.str "123456")]⟩

/-- A concrete envelope with an unknown event type and empty recipient. -/
def eventU : EmailEvent := ⟨"m9", "welcome", 0, "", []⟩

/-! ## Claims -/

/-- C1: in every reachable execution of `processMessage`, the idempotency
barrier write (`Action.markProcessed`, the `MarkAsProcessed` call) is
invoked only after some dispatch attempt (`sendAttempt`) has returned
success; no trace performs the barrier write before dispatch or on a
failing dispatch path. -/
theorem C1_barrier_write_only_after_success (cfg : ConsumerConfig) (env : ConsumerEnv) :
    markAfterSuccess (processMessage cfg env) false = true := by
  cases hp : env.parse with
  | none => rw [processMessage_parse_none cfg env hp]; rfl
  | some event =>
    by_cases hid : event.messageID = ""
    · rw [processMessage_invalid cfg env event hp hid]; rfl
    · cases hd : env.dedupResult with
      | error e => rw [processMessage_dedup_error cfg env event e hp hid hd]; rfl
      | ok dup =>
        cases dup
        · cases hres : (processWithRetry env.send cfg.maxRetries).result with
          | error e =>
            rw [processMessage_retry_failed cfg env event e hp hid hd hres]
            simp only [markAfterSuccess, markAfterSuccess_append,
              markAfterSuccess_processWithRetry, Bool.true_and]
            cases env.dlqMarshalOk <;> cases env.dlqProduceOk <;>
              simp [sendToDLQ, markAfterSuccess]
          | ok u =>
            cases u
            cases hm : env.markResult with
            | error e =>
              rw [processMessage_mark_error cfg env event e hp hid hd hres hm]
              simp only [markAfterSuccess, markAfterSuccess_append,
                markAfterSuccess_processWithRetry, Bool.true_and,
                seenAfter_processWithRetry_ok env.send cfg.maxRetries false hres]
            | ok b =>
              rw [processMessage_mark_ok cfg env event b hp hid hd hres hm]
              simp only [markAfterSuccess, markAfterSuccess_append,
                markAfterSuccess_processWithRetry, Bool.true_and,
                seenAfter_processWithRetry_ok env.send cfg.maxRetries false hres]
        · rw [processMessage_duplicate cfg env event hp hid hd]; rfl

/-- C2: if the dedup check (`IsProcessed`) errors, `processMessage`
performs only the barrier read — no dispatch attempt, no dead-letter
record, no commit; if `MarkAsProcessed` errors after a successful
dispatch, the trace is the dedup read, the dispatch attempts and the
barrier write attempt, again with no commit and no dead-letter record. -/
theorem C2_barrier_unreachable_no_commit (cfg : ConsumerConfig) (env : ConsumerEnv)
    (event : EmailEvent) (hp : env.parse = some event)
    (hid : event.messageID ≠ "") :
    ((∃ e, env.dedupResult = Except.error e) →
      processMessage cfg env = [Action.dedupRead event.messageID]) ∧
    (env.dedupResult = Except.ok false →
      (processWithRetry env.send cfg.maxRetries).result = Except.ok () →
      (∃ e, env.markResult = Except.error e) →
      processMessage cfg env =
        Action.dedupRead event.messageID ::
          ((processWithRetry env.send cfg.maxRetries).trace
            ++ [Action.markProcessed event.messageID]) ∧
      Action.commit ∉ processMessage cfg env ∧
      dlqRecords (processMessage cfg env) = []) := by
  constructor
  · rintro ⟨e, he⟩
    exact processMessage_dedup_error cfg env event e hp hid he
  · intro hd hok hme
    obtain ⟨e, he⟩ := hme
    have heq := processMessage_mark_error cfg env event e hp hid hd hok he
    refine ⟨heq, ?_, ?_⟩
    · rw [heq]
      have := commit_not_mem_processWithRetry env.send cfg.maxRetries
      simp [List.mem_append]
      exact this
    · rw [heq]
      simp [dlqRecords, dlqRecords_append, dlqRecords_processWithRetry]

/-- C2 witness: with the barrier unreachable during the dedup check, the
trace is exactly the dedup read. -/
theorem C2_witness :
    processMessage cfgW
      ⟨some eventW, Except.error "redis down", fun _ => Except.ok (),
        Except.ok true, true, true, 0⟩ = [Action.dedupRead "m1"] := by
  have h := (C2_barrier_unreachable_no_commit cfgW
    ⟨some eventW, Except.error "redis down", fun _ => Except.ok (),
      Except.ok true, true, true, 0⟩ eventW rfl (by decide)).1 ⟨"redis down", rfl⟩
  simpa [eventW] using h

/-- C3: `processMessage` commits exactly on the terminal states — parse
failure, validation failure (empty `message_id`), duplicate detected,
successful dispatch followed by a successful (`created` true or false)
barrier write, or retry exhaustion followed by dead-lettering — and in no
other case; the skip paths commit without dispatching or touching the
barrier, and the duplicate path commits right after the dedup read. -/
theorem C3_commit_iff_terminal (cfg : ConsumerConfig) (env : ConsumerEnv) :
    (Action.commit ∈ processMessage cfg env ↔
      (env.parse = none ∨
        ∃ event, env.parse = some event ∧
          (event.messageID = "" ∨
            env.dedupResult = Except.ok true ∨
            (env.dedupResult = Except.ok false ∧
              ((∃ e, (processWithRetry env.send cfg.maxRetries).result =
                  Except.error e) ∨
                ((processWithRetry env.send cfg.maxRetries).result =
                    Except.ok () ∧
                  ∃ b, env.markResult = Except.ok b)))))) ∧
    (env.parse = none → processMessage cfg env = [Action.commit]) ∧
    (∀ event, env.parse = some event → event.messageID = "" →
      processMessage cfg env = [Action.commit]) ∧
    (∀ event, env.parse = some event → event.messageID ≠ "" →
      env.dedupResult = Except.ok true →
      processMessage cfg env = [Action.dedupRead event.messageID, Action.commit]) := by
  refine ⟨?_, ?_, ?_, ?_⟩
  · cases hp : env.parse with
    | none =>
      rw [processMessage_parse_none cfg env hp]
      simp
    | some event =>
      by_cases hid : event.messageID = ""
      · rw [processMessage_invalid cfg env event hp hid]
        simp [hid]
      · cases hd : env.dedupResult with
        | error e =>
          rw [processMessage_dedup_error cfg env event e hp hid hd]
          simp [hid, hd]
        | ok dup =>
          cases dup
          · cases hres : (processWithRetry env.send cfg.maxRetries).result with
            | error e =>
              rw [processMessage_retry_failed cfg env event e hp hid hd hres]
              simp [hid, hd, hres]
            | ok u =>
              cases u
              cases hm : env.markResult with
              | error e =>
                rw [processMessage_mark_error cfg env event e hp hid hd hres hm]
                have hnc := commit_not_mem_processWithRetry env.send cfg.maxRetries
                simp [hid, hd, hres, hm, hnc]
              | ok b =>
                rw [processMessage_mark_ok cfg env event b hp hid hd hres hm]
                simp [hid, hd, hres, hm]
          · rw [processMessage_duplicate cfg env event hp hid hd]
            simp [hid, hd]
  · exact processMessage_parse_none cfg env
  · exact fun event hp hid => processMessage_invalid cfg env event hp hid
  · exact fun event hp hid hd => processMessage_duplicate cfg env event hp hid hd

/-- C3 witness: a malformed message (parse failure) is committed to skip
it. -/
theorem C3_witness :
    processMessage cfgW
      ⟨none, Except.ok false, fun _ => Except.ok (), Except.ok true,
        true, true, 0⟩ = [Action.commit] :=
  (C3_commit_iff_terminal cfgW
    ⟨none, Except.ok false, fun _ => Except.ok (), Except.ok true,
      true, true, 0⟩).2.1 rfl

/-- C4: with `MaxRetries = 3` and a dispatch failing on every attempt,
`processWithRetry` performs exactly 3 attempts and returns an error
wrapping the last attempt's error, after which `processMessage` produces
exactly one dead-letter record referencing the envelope and commits. -/
theorem C4_retry_exhaustion (cfg : ConsumerConfig) (env : ConsumerEnv)
    (event : EmailEvent) (hmr : cfg.maxRetries = 3) (hp : env.parse = some event)
    (hid : event.messageID ≠ "") (hd : env.dedupResult = Except.ok false)
    (hfail : ∀ n, ∃ msg, env.send n = Except.error msg)
    (hmo : env.dlqMarshalOk = true) (hq : env.dlqProduceOk = true) :
    countSends (processMessage cfg env) = 3 ∧
    (∃ msg, env.send 3 = Except.error msg ∧
      (processWithRetry env.send cfg.maxRetries).result =
        Except.error ("max retries exceeded: " ++ msg)) ∧
    (∃ e, dlqRecords (processMessage cfg env) =
      [⟨event, e, env.now, cfg.consumerGroup⟩]) ∧
    Action.commit ∈ processMessage cfg env := by
  have heff : effectiveMaxRetries cfg.maxRetries = 3 := by rw [hmr]; rfl
  obtain ⟨msg, hm3, hres⟩ := result_processWithRetry_allFail env.send cfg.maxRetries hfail
  rw [heff] at hm3
  norm_num at hm3
  have heq := processMessage_retry_failed cfg env event
    ("max retries exceeded: " ++ msg) hp hid hd hres
  refine ⟨?_, ⟨msg, hm3, hres⟩, ?_, ?_⟩
  · rw [heq, hmo, hq]
    simp [countSends, countSends_append, sendToDLQ,
      countSends_processWithRetry_allFail env.send cfg.maxRetries hfail, heff]
  · refine ⟨"max retries exceeded: " ++ msg, ?_⟩
    rw [heq, hmo, hq]
    simp [dlqRecords, dlqRecords_append, dlqRecords_processWithRetry, sendToDLQ]
  · rw [heq]
    simp

/-- C4 witness: a concrete envelope whose dispatch always fails makes
exactly 3 attempts and ends committed. -/
theorem C4_witness :
    countSends (processMessage cfgW
      ⟨some eventW, Except.ok false, fun _ => Except.error "smtp timeout",
        Except.ok true, true, true, 42⟩) = 3 ∧
    Action.commit ∈ processMessage cfgW
      ⟨some eventW, Except.ok false, fun _ => Except.error "smtp timeout",
        Except.ok true, true, true, 42⟩ := by
  have h := C4_retry_exhaustion cfgW
    ⟨some eventW, Except.ok false, fun _ => Except.error "smtp timeout",
      Except.ok true, true, true, 42⟩ eventW rfl rfl (by decide) rfl
    (fun _ => ⟨"smtp timeout", rfl⟩) rfl rfl
  exact ⟨h.1, h.2.2.2⟩

/-- C5 counterexample: the backoff slept after failed attempt `k` is `k`
seconds (`time.Duration(attempt) * time.Second`), a linear schedule; with
4 permanently failing attempts the three delays are 1s, 2s, 3s — not the
1s, 2s, 4s the claim states. -/
theorem C5_counterexample :
    sleepsOf (processWithRetry (fun _ => Except.error "boom") 4).trace = [1, 2, 3] ∧
    sleepsOf (processWithRetry (fun _ => Except.error "boom") 4).trace ≠ [1, 2, 4] := by
  constructor
  · rfl
  · decide

/-- C5 (amended): the backoff delay is a deterministic function of the
attempt index alone and is monotone — the sleeps of any `processWithRetry`
run form the list `[1, 2, ..., m]` (the delay before attempt `k` is `k−1`
seconds, so the schedule is linear 1s, 2s, 3s, not 1s, 2s, 4s), which is
nondecreasing. -/
theorem C5_amended_backoff_linear_monotone (send : Nat → Except String Unit)
    (mr : Int) :
    (∃ m, sleepsOf (processWithRetry send mr).trace = List.range' 1 m) ∧
    List.Chain' (fun a b => a ≤ b) (sleepsOf (processWithRetry send mr).trace) := by
  obtain ⟨m, hm⟩ := sleepsOf_retryFrom_range send (effectiveMaxRetries mr) 1 ""
  have hm' : sleepsOf (processWithRetry send mr).trace = List.range' 1 m := hm
  refine ⟨⟨m, hm'⟩, ?_⟩
  rw [hm']
  exact chain_le_range' m 1

/-- C6: after retry exhaustion, no failure of the dead-letter write
(marshal failure or produce failure, both swallowed by `sendToDLQ`, which
reports no error) prevents the offset commit: the trace always ends with
the commit, for every value of the DLQ oracles carried by `env`. -/
theorem C6_dlq_failure_never_blocks_commit (cfg : ConsumerConfig)
    (env : ConsumerEnv) (event : EmailEvent) (e : String)
    (hp : env.parse = some event) (hid : event.messageID ≠ "")
    (hd : env.dedupResult = Except.ok false)
    (hres : (processWithRetry env.send cfg.maxRetries).result = Except.error e) :
    ∃ pre, processMessage cfg env = pre ++ [Action.commit] := by
  refine ⟨Action.dedupRead event.messageID ::
    ((processWithRetry env.send cfg.maxRetries).trace
      ++ sendToDLQ cfg env.now env.dlqMarshalOk env.dlqProduceOk event e), ?_⟩
  rw [processMessage_retry_failed cfg env event e hp hid hd hres]
  simp

/-- C6 witness: even with the dead-letter marshal and produce both
failing, the exhausted message is still committed. -/
theorem C6_witness :
    ∃ pre, processMessage cfgW
      ⟨some eventW, Except.ok false, fun _ => Except.error "smtp timeout",
        Except.ok true, false, false, 7⟩ = pre ++ [Action.commit] :=
  C6_dlq_failure_never_blocks_commit cfgW
    ⟨some eventW, Except.ok false, fun _ => Except.error "smtp timeout",
      Except.ok true, false, false, 7⟩ eventW
    ("max retries exceeded: " ++ "smtp timeout") rfl (by decide) rfl
    (result_processWithRetry_constFail (fun _ => Except.error "smtp timeout") 3
      "smtp timeout" (fun _ => rfl))

/-- C7: the idempotency record is stored under the key
`"email:sent:" ++ message_id` with metadata `{sent_at, recipient,
event_type}` and the fixed TTL `24 * time.Hour`; `MarkAsProcessed` creates
iff no record for that key existed (and leaves the store unchanged when it
loses the race); and when the consumer's `MarkAsProcessed` returns
`created = false` without error, `processMessage` still commits. -/
theorem C7_idempotency_record (store : List StoreEntry) (now : Nat)
    (event : EmailEvent) (cfg : ConsumerConfig) (env : ConsumerEnv)
    (pevent : EmailEvent) (hp : env.parse = some pevent)
    (hid : pevent.messageID ≠ "") (hd : env.dedupResult = Except.ok false)
    (hres : (processWithRetry env.send cfg.maxRetries).result = Except.ok ())
    (hrace : env.markResult = Except.ok false) :
    ((MarkAsProcessed store now event).1 = true ↔
      ∀ en ∈ store, en.key ≠ buildKey event.messageID) ∧
    ((MarkAsProcessed store now event).1 = true →
      (MarkAsProcessed store now event).2 =
        store ++ [⟨"email:sent:" ++ event.messageID,
          ⟨now, event.recipient, event.eventType⟩, 24 * hourNs⟩]) ∧
    ((MarkAsProcessed store now event).1 = false →
      (MarkAsProcessed store now event).2 = store) ∧
    Action.commit ∈ processMessage cfg env := by
  have hval : (MarkAsProcessed store now event).1 =
      !(store.any (fun en => en.key == buildKey event.messageID)) := by
    by_cases h : store.any (fun en => en.key == buildKey event.messageID) <;>
      simp [MarkAsProcessed, setNX, h]
  refine ⟨?_, ?_, ?_, ?_⟩
  · rw [hval]
    simp [List.any_eq_true]
  · intro hcreated
    by_cases h : store.any (fun en => en.key == buildKey event.messageID)
    · rw [hval, h] at hcreated
      simp at hcreated
    · have hne : ¬ ∃ x ∈ store, x.key = "email:sent:" ++ event.messageID := by
        simpa [List.any_eq_true, buildKey, sentKeyNS] using h
      simp [MarkAsProcessed, setNX, buildKey, sentKeyNS, idempotencyTTL, hne]
  · intro hcreated
    by_cases h : store.any (fun en => en.key == buildKey event.messageID)
    · simp [MarkAsProcessed, setNX, h]
    · rw [hval] at hcreated
      simp [h] at hcreated
  · rw [processMessage_mark_ok cfg env pevent false hp hid hd hres hrace]
    simp

/-- C7 witness: marking a fresh message in an empty store creates the
namespaced record with the metadata snapshot and the 24-hour TTL, and a
race-losing consumer still commits. -/
theorem C7_witness :
    ((MarkAsProcessed [] 5 eventW).1 = true →
      (MarkAsProcessed [] 5 eventW).2 =
        [] ++ [⟨"email:sent:" ++ "m1", ⟨5, "a@x.com", "verification_code"⟩,
          24 * hourNs⟩]) ∧
    Action.commit ∈ processMessage cfgW
      ⟨some eventW, Except.ok false, fun _ => Except.ok (),
        Except.ok false, true, true, 5⟩ := by
  have h := C7_idempotency_record [] 5 eventW cfgW
    ⟨some eventW, Except.ok false, fun _ => Except.ok (),
      Except.ok false, true, true, 5⟩ eventW rfl (by decide) rfl rfl rfl
  exact ⟨h.2.1, h.2.2.2⟩

/-- C8: `PublishEmailEventSync` returns nil exactly when serialization
succeeded, the produce enqueue succeeded and the delivery report carries
no transport error; a serialization failure returns an error without ever
calling produce; a transport error in the delivery report, and an enqueue
error, are both surfaced to the caller. -/
theorem C8_publish_sync_confirms (marshal : Except String String)
    (produceErr deliveryErr : Option String) :
    ((PublishEmailEventSync marshal produceErr deliveryErr).result = Except.ok () ↔
      ((∃ s, marshal = Except.ok s) ∧ produceErr = none ∧ deliveryErr = none)) ∧
    (∀ e, marshal = Except.error e →
      PublishEmailEventSync marshal produceErr deliveryErr =
        ⟨Except.error ("failed to marshal event: " ++ e), false⟩) ∧
    (∀ s e, marshal = Except.ok s → produceErr = none → deliveryErr = some e →
      (PublishEmailEventSync marshal produceErr deliveryErr).result =
        Except.error ("delivery failed: " ++ e)) ∧
    (∀ s e, marshal = Except.ok s → produceErr = some e →
      (PublishEmailEventSync marshal produceErr deliveryErr).result =
        Except.error ("failed to produce message: " ++ e)) := by
  cases marshal <;> cases produceErr <;> cases deliveryErr <;>
    simp [PublishEmailEventSync]

/-- C8 witness: a transport error in the delivery report is surfaced. -/
theorem C8_witness :
    (PublishEmailEventSync (Except.ok "{}") none (some "broker down")).result =
      Except.error ("delivery failed: " ++ "broker down") :=
  (C8_publish_sync_confirms (Except.ok "{}") none (some "broker down")).2.2.1
    "{}" "broker down" rfl rfl rfl

/-- C9: consumer-side validation checks only that `message_id` is
non-empty — any such envelope (empty recipient, unknown event type,
missing code) proceeds to the dedup check and, when no duplicate is found,
into dispatch; the log-mode sender accepts an unknown event type (returns
nil) so the envelope is marked processed and committed, while the SMTP
sender rejects it, sending the envelope down the retry-and-dead-letter
path. -/
theorem C9_validation_only_message_id (cfg : ConsumerConfig) (env : ConsumerEnv)
    (event : EmailEvent) (tr : String → String → Except String Unit)
    (hp : env.parse = some event) (hid : event.messageID ≠ "") :
    (∃ rest, processMessage cfg env = Action.dedupRead event.messageID :: rest) ∧
    (env.dedupResult = Except.ok false →
      ∃ b rest, processMessage cfg env =
        Action.dedupRead event.messageID :: Action.sendAttempt 1 b :: rest) ∧
    (event.eventType ≠ EmailTypeVerificationCode →
      logSenderSend event = Except.ok () ∧
      smtpSenderSend tr event =
        Except.error ("unsupported email type: " ++ event.eventType)) ∧
    (env.dedupResult = Except.ok false →
      env.send = (fun _ => logSenderSend event) →
      event.eventType ≠ EmailTypeVerificationCode →
      ∀ b, env.markResult = Except.ok b →
      processMessage cfg env =
        [Action.dedupRead event.messageID, Action.sendAttempt 1 true,
          Action.markProcessed event.messageID, Action.commit]) ∧
    (env.dedupResult = Except.ok false →
      env.send = (fun _ => smtpSenderSend tr event) →
      event.eventType ≠ EmailTypeVerificationCode →
      env.dlqMarshalOk = true → env.dlqProduceOk = true →
      dlqRecords (processMessage cfg env) =
        [⟨event, "max retries exceeded: " ++
          ("unsupported email type: " ++ event.eventType),
          env.now, cfg.consumerGroup⟩] ∧
      Action.commit ∈ processMessage cfg env) := by
  refine ⟨?_, ?_, ?_, ?_, ?_⟩
  · cases hd : env.dedupResult with
    | error e => exact ⟨[], processMessage_dedup_error cfg env event e hp hid hd⟩
    | ok dup =>
      cases dup
      · cases hres : (processWithRetry env.send cfg.maxRetries).result with
        | error e =>
          exact ⟨_, processMessage_retry_failed cfg env event e hp hid hd hres⟩
        | ok u =>
          cases u
          cases hm : env.markResult with
          | error e =>
            exact ⟨_, processMessage_mark_error cfg env event e hp hid hd hres hm⟩
          | ok b => exact ⟨_, processMessage_mark_ok cfg env event b hp hid hd hres hm⟩
      · exact ⟨[Action.commit], processMessage_duplicate cfg env event hp hid hd⟩
  · intro hd
    obtain ⟨b, rest, hhead⟩ := processWithRetry_trace_head env.send cfg.maxRetries
    cases hres : (processWithRetry env.send cfg.maxRetries).result with
    | error e =>
      refine ⟨b, rest ++ (sendToDLQ cfg env.now env.dlqMarshalOk env.dlqProduceOk
        event e ++ [Action.commit]), ?_⟩
      rw [processMessage_retry_failed cfg env event e hp hid hd hres, hhead]
      simp
    | ok u =>
      cases u
      cases hm : env.markResult with
      | error e =>
        refine ⟨b, rest ++ [Action.markProcessed event.messageID], ?_⟩
        rw [processMessage_mark_error cfg env event e hp hid hd hres hm, hhead]
        simp
      | ok v =>
        refine ⟨b, rest ++ [Action.markProcessed event.messageID, Action.commit], ?_⟩
        rw [processMessage_mark_ok cfg env event v hp hid hd hres hm, hhead]
        simp
  · intro hty
    constructor
    · simp [logSenderSend, hty]
    · simp [smtpSenderSend, hty]
  · intro hd hsend hty b hm
    have hok : env.send 1 = Except.ok () := by
      rw [hsend]
      simp [logSenderSend, hty]
    have hfirst := processWithRetry_first_ok env.send cfg.maxRetries hok
    have hres : (processWithRetry env.send cfg.maxRetries).result = Except.ok () := by
      rw [hfirst]
    rw [processMessage_mark_ok cfg env event b hp hid hd hres hm, hfirst]
    simp
  · intro hd hsend hty hmo hq
    have hconst : ∀ n, env.send n =
        Except.error ("unsupported email type: " ++ event.eventType) := by
      intro n
      rw [hsend]
      simp [smtpSenderSend, hty]
    have hres := result_processWithRetry_constFail env.send cfg.maxRetries
      ("unsupported email type: " ++ event.eventType) hconst
    have heq := processMessage_retry_failed cfg env event
      ("max retries exceeded: " ++ ("unsupported email type: " ++ event.eventType))
      hp hid hd hres
    constructor
    · rw [heq, hmo, hq]
      simp [dlqRecords, dlqRecords_append, dlqRecords_processWithRetry, sendToDLQ]
    · rw [heq]
      simp

/-- C9 witness: an envelope with an unknown event type and an empty
recipient passes validation, is dispatched by the log-mode sender, marked
processed and committed. -/
theorem C9_witness :
    processMessage cfgW
      ⟨some eventU, Except.ok false, fun _ => logSenderSend eventU,
        Except.ok true, true, true, 0⟩ =
      [Action.dedupRead "m9", Action.sendAttempt 1 true,
        Action.markProcessed "m9", Action.commit] := by
  have h := (C9_validation_only_message_id cfgW
    ⟨some eventU, Except.ok false, fun _ => logSenderSend eventU,
      Except.ok true, true, true, 0⟩ eventU (fun _ _ => Except.ok ())
    rfl (by decide)).2.2.2.1 rfl rfl (by decide) true rfl
  simpa [eventU] using h

/-- C10: `processWithRetry` substitutes the default bound 3 when the
configured `MaxRetries` is zero or negative, and otherwise uses it as is:
a permanently failing dispatch makes exactly
`if MaxRetries ≤ 0 then 3 else MaxRetries` attempts. -/
theorem C10_default_retry_bound (mr : Int) (send : Nat → Except String Unit)
    (hfail : ∀ n, ∃ msg, send n = Except.error msg) :
    countSends (processWithRetry send mr).trace =
      (if mr ≤ 0 then 3 else mr.toNat) := by
  rw [countSends_processWithRetry_allFail send mr hfail]
  rfl

/-- C10 witness: a zero-or-negative configured bound still makes three
attempts. -/
theorem C10_witness :
    countSends (processWithRetry (fun _ => Except.error "x") (-2)).trace =
      (if (-2 : Int) ≤ 0 then 3 else (-2 : Int).toNat) :=
  C10_default_retry_bound (-2) (fun _ => Except.error "x") (fun _ => ⟨"x", rfl⟩)

end Instant
